import Mathlib

/-!
Verification of the pg-filecommenter-sourcemap library: a shallow embedding of
src/pg-filecommenter-sourcemap.js. Queries issued through a patched pg pool are
annotated with a SQL comment naming the source position of the caller, resolved
through a source map when one is present next to the compiled file.

Strings are modelled as lists of characters. JS values, as far as the library
inspects them, are modelled by the inductive JsValue. The filesystem, the
source-map parser and the wrapped pool.query are modelled as parameters, since
they are external collaborators of the module under verification.
-/

set_option linter.unusedVariables false

namespace PgFileCommenter

/-- Strings as lists of characters. -/
abbrev Str := List Char

/-- Character list of a Lean string literal. -/
def strLit (s : String) : Str := s.data

/-- The characters stripped by the JS String.prototype.trim method
(the common ASCII whitespace characters). -/
def isJsWhitespace (c : Char) : Bool :=
  c = ' ' || c = '\t' || c = '\n' || c = '\r' || c = '\x0b' || c = '\x0c'

/-- JS String.prototype.trim: strip whitespace from both ends. -/
def jsTrim (s : Str) : Str :=
  ((s.dropWhile isJsWhitespace).reverse.dropWhile isJsWhitespace).reverse

/-- JS String.prototype.endsWith. -/
def endsWith (s suffixPart : Str) : Bool := suffixPart.isSuffixOf s

/-- JS String.prototype.includes: does needle occur as a contiguous
substring of hay? -/
def strIncludes (hay needle : Str) : Bool :=
  match hay with
  | [] => needle.isEmpty
  | _ :: rest => needle.isPrefixOf hay || strIncludes rest needle

/-- Number of positions of s at which the pattern p starts an occurrence
(occurrences may overlap). -/
def countOcc (p : Str) : Str → Nat
  | [] => 0
  | c :: rest => (if p.isPrefixOf (c :: rest) then 1 else 0) + countOcc p rest

/-- JS values, to the depth the library inspects them: the typeof tag, the
truthiness, and the text property of structured query objects. Functions are
identified by an opaque tag so that distinct callbacks can be told apart. -/
inductive JsValue where
  | undefV
  | null
  | bool (b : Bool)
  | num (n : Int)
  | str (s : Str)
  | func (tag : Nat)
  | arr (elems : List JsValue)
  | obj (fields : List (Str × JsValue))

/-- The JS typeof operator. Note typeof null is the string object. -/
def jsTypeof : JsValue → Str
  | .undefV => strLit "undefined"
  | .null => strLit "object"
  | .bool _ => strLit "boolean"
  | .num _ => strLit "number"
  | .str _ => strLit "string"
  | .func _ => strLit "function"
  | .arr _ => strLit "object"
  | .obj _ => strLit "object"

/-- JS truthiness. -/
def truthy : JsValue → Bool
  | .undefV => false
  | .null => false
  | .bool b => b
  | .num n => decide (n ≠ 0)
  | .str s => !s.isEmpty
  | .func _ => true
  | .arr _ => true
  | .obj _ => true

/-- First binding of a key in an object field list. -/
def assocLookup : List (Str × JsValue) → Str → Option JsValue
  | [], _ => none
  | (k, v) :: rest, q => if k = q then some v else assocLookup rest q

/-- Overwrite the first binding of a key, or append one. This is JS
property assignment on a plain object. -/
def setAssoc : List (Str × JsValue) → Str → JsValue → List (Str × JsValue)
  | [], q, v => [(q, v)]
  | (k, w) :: rest, q, v =>
    if k = q then (q, v) :: rest else (k, w) :: setAssoc rest q v

/-- Stand-in for the TypeError raised by a property access on null or
undefined, and by calling a method of a non-string text field. -/
def typeErrorValue : JsValue := JsValue.str (strLit "TypeError")

/-- JS member access v.k: throws a TypeError on null and undefined, looks up
own properties of plain objects, and yields undefined otherwise (a plain
array or primitive has no own property named text). -/
def getProp : JsValue → Str → Except JsValue JsValue
  | .null, _ => .error typeErrorValue
  | .undefV, _ => .error typeErrorValue
  | .obj fields, q => .ok ((assocLookup fields q).getD .undefV)
  | _, _ => .ok .undefV

/-- The regex replace of an optional trailing semicolon, text.replace with
pattern semicolon-question-dollar: the first match is the trailing semicolon
when there is one, and the empty match at the very end otherwise. -/
def replaceOptTrailingSemi (t : Str) : Str :=
  if endsWith t [';'] then t.dropLast else t

/-- The comment token built by addFileCommentToQuery from the resolved
position (null resolves to the unknown form). -/
def buildComment (resolvedPosition : Option Str) : Str :=
  let commentContent :=
    match resolvedPosition with
    | some p => strLit "file=" ++ p
    | none => strLit "file=unknown"
  strLit "/* " ++ commentContent ++ strLit " */"

/-- addFileCommentToQuery, lines 105-128 of the source, parameterised by the
already-resolved caller position (in the source the position is produced by
awaiting resolveOriginalPosition on the captured frame; the resolution
pipeline is modelled separately below). The function body is the branch
cascade on typeof text; a thrown TypeError is an Except error, which in the
async source becomes a rejected promise. -/
def addFileCommentToQuery (resolvedPosition : Option Str) (text values : JsValue) :
    Except JsValue (JsValue × JsValue) :=
  let comment := buildComment resolvedPosition
  match text with
  | JsValue.str s =>
    -- string branch: trim, reinsert the terminator after the comment
    if endsWith (jsTrim s) [';'] then
      Except.ok (JsValue.str ((jsTrim s).dropLast ++ ' ' :: comment ++ [';']), values)
    else
      Except.ok (JsValue.str (s ++ ' ' :: comment), values)
  | _ =>
    -- typeof text is the string object for null, arrays and plain objects;
    -- the text.text access throws on null
    if jsTypeof text = strLit "object" then
      match getProp text (strLit "text") with
      | Except.error e => Except.error e
      | Except.ok textField =>
        if truthy textField then
          match text, textField with
          | JsValue.obj fields, JsValue.str inner =>
            if strIncludes inner comment then
              Except.ok (text, values)
            else
              Except.ok (JsValue.obj (setAssoc fields (strLit "text")
                (JsValue.str (replaceOptTrailingSemi (jsTrim inner)
                  ++ ' ' :: comment ++ [';']))), values)
          | _, _ =>
            -- a truthy non-string text field: includes or trim is not a
            -- function on it, so the call throws
            Except.error typeErrorValue
        else
          Except.ok (text, values)
    else
      Except.ok (text, values)

/-! ## Frame capture -/

/-- A raw V8 call-site as inspected by getCallerFrame: getFileName may
return null, modelled as none. -/
structure RawFrame where
  fileName : Option Str
  line : Int
  column : Int
deriving DecidableEq

/-- The record returned by getCallerFrame. -/
structure Frame where
  fileName : Str
  line : Int
  column : Int
deriving DecidableEq

/-- Possible values of the global Error.prepareStackTrace slot: whatever the
host had installed (an opaque tag), or the temporary raw-stack returner the
module installs while capturing. -/
inductive PrepareVal where
  | host (tag : Nat)
  | stackReturner
deriving DecidableEq

/-- The process-global state touched by getCallerFrame. -/
structure ProcState where
  prepareStackTrace : PrepareVal
deriving DecidableEq

/-- The frame filter of the scan loop: a truthy (non-null, non-empty)
file name that does not contain node_modules and does not end with the
module file name pg-filecommenter-sourcemap.js. -/
def frameQualifies (f : RawFrame) : Bool :=
  match f.fileName with
  | none => false
  | some fn =>
    !fn.isEmpty &&
    !(strIncludes fn (strLit "node_modules")) &&
    !((strLit "pg-filecommenter-sourcemap.js").isSuffixOf fn)

/-- The record built from a selected call-site. -/
def toFrame (f : RawFrame) : Frame :=
  ⟨f.fileName.getD [], f.line, f.column⟩

/-- getCallerFrame, lines 41-67 of the source, threaded through the process
state explicitly. It saves Error.prepareStackTrace, installs the raw-stack
returner, captures the stack (under the installed returner the captured
err.stack is exactly the raw call-site array, given here as input), restores
the saved value, and only then scans for the first qualifying frame; the
loop with early return is List.find?. -/
def getCallerFrame (st : ProcState) (rawStack : List RawFrame) :
    Option Frame × ProcState :=
  let origPrepareStackTrace := st.prepareStackTrace
  let stSet : ProcState := ⟨PrepareVal.stackReturner⟩
  let stack := rawStack
  let stRestored : ProcState := ⟨origPrepareStackTrace⟩
  ((stack.find? frameQualifies).map toFrame, stRestored)

/-! ## Source map cache and position resolution -/

/-- The original position answered by the source-map consumer; source is
null (none) when the map has no mapping at the queried position. -/
structure OriginalPos where
  source : Option Str
  line : Int
  column : Int

/-- A parsed source-map consumer: the library object is abstracted to its
originalPositionFor method. -/
structure Consumer where
  originalPositionFor : Int → Int → OriginalPos

/-- What the filesystem holds at a path: no file, a file whose read throws,
or readable content. -/
inductive FileState where
  | absent
  | readError
  | content (data : Str)

/-- The external world of loadSourceMapForFile: the filesystem and the
SourceMapConsumer constructor (none models a parse that throws). -/
structure Env where
  fs : Str → FileState
  parse : Str → Option Consumer

/-- The module-level sourceMapCache Map, as an association list; a stored
none is a recorded absence. -/
abbrev Cache := List (Str × Option Consumer)

/-- Map.get combined with Map.has: some entry when the key is present. -/
def cacheLookup : Cache → Str → Option (Option Consumer)
  | [], _ => none
  | (k, v) :: rest, q => if k = q then some v else cacheLookup rest q

/-- Map.set: the new binding shadows any older one. -/
def cacheSet (c : Cache) (q : Str) (v : Option Consumer) : Cache := (q, v) :: c

/-- loadSourceMapForFile, lines 12-36 of the source: answer from the cache
when possible, otherwise probe the conventional map path (the compiled path
with .map appended), read and parse it, cache the outcome, and turn every
failure into a cached null. -/
def loadSourceMapForFile (env : Env) (cache : Cache) (jsFilePath : Str) :
    Option Consumer × Cache :=
  match cacheLookup cache jsFilePath with
  | some entry => (entry, cache)
  | none =>
    let mapPath := jsFilePath ++ strLit ".map"
    match env.fs mapPath with
    | FileState.absent => (none, cacheSet cache jsFilePath none)
    | FileState.readError => (none, cacheSet cache jsFilePath none)
    | FileState.content rawMap =>
      match env.parse rawMap with
      | none => (none, cacheSet cache jsFilePath none)
      | some parsedMap => (some parsedMap, cacheSet cache jsFilePath (some parsedMap))

/-- Decimal rendering of a JS integer, as template literals render it. -/
def intToStr (i : Int) : Str :=
  if i < 0 then '-' :: Nat.toDigits 10 i.natAbs else Nat.toDigits 10 i.natAbs

/-- path.basename for posix paths: drop trailing separators, then keep the
part after the last separator. -/
def baseName (p : Str) : Str :=
  ((p.reverse.dropWhile (fun c => c = '/')).takeWhile (fun c => c ≠ '/')).reverse

/-- Truthiness of the source field of an original position: null and the
empty string are falsy. -/
def jsStrTruthy : Option Str → Bool
  | none => false
  | some s => !s.isEmpty

/-- The source-colon-line-colon-column template literal. -/
def formatPosition (src : Str) (l c : Int) : Str :=
  src ++ ':' :: intToStr l ++ ':' :: intToStr c

/-- resolveOriginalPosition, lines 73-97 of the source, threading the cache.
Null frames and falsy fields resolve to null; with no usable consumer the
compiled position is rendered from the base file name; a consumer is asked
for the original position, used only when its source is truthy. -/
def resolveOriginalPosition (env : Env) (cache : Cache) (frame : Option Frame) :
    Option Str × Cache :=
  match frame with
  | none => (none, cache)
  | some f =>
    if f.fileName.isEmpty || f.line = 0 || f.column = 0 then (none, cache)
    else
      match loadSourceMapForFile env cache f.fileName with
      | (none, cache2) =>
        (some (formatPosition (baseName f.fileName) f.line f.column), cache2)
      | (some consumer, cache2) =>
        let originalPos := consumer.originalPositionFor f.line f.column
        if jsStrTruthy originalPos.source then
          (some (formatPosition (originalPos.source.getD [])
            originalPos.line originalPos.column), cache2)
        else
          (some (formatPosition (baseName f.fileName) f.line f.column), cache2)

/-! ## The patched pool.query -/

/-- Observable outcome of one call of the patched pool.query: the argument
pair forwarded to the original query method (none when annotation rejected
before forwarding), the value returned to the caller (none models a bare
return of undefined, some p a returned promise settling as p), and the
callback invocation performed, as the called function value and its
argument list. -/
structure PatchedOutcome where
  forwarded : Option (JsValue × JsValue)
  returned : Option (Except JsValue JsValue)
  callbackCall : Option (JsValue × List JsValue)

/-- The two continuations promise.then installs for a supplied callback:
callback null res on fulfilment and callback err on rejection. -/
def deliverToCallback (outcome : Except JsValue JsValue) : List JsValue :=
  match outcome with
  | Except.ok res => [JsValue.null, res]
  | Except.error err => [err]

/-- patchedQuery, lines 139-160 of the source, the function patchPGPoolAsync
installs as pool.query. The original pool.query is the parameter origQuery,
abstracted as a function of its two forwarded arguments; the caller position,
resolved inside addFileCommentToQuery in the source, is the parameter
resolvedPosition. A function second argument is shifted into the callback
slot with values becoming undefined; the annotation promise is chained into
the original query; a truthy callback receives the outcome and undefined is
returned, otherwise the chained promise itself is returned. -/
def patchedQuery (origQuery : JsValue → JsValue → Except JsValue JsValue)
    (resolvedPosition : Option Str) (text values callback : JsValue) :
    PatchedOutcome :=
  let shifted :=
    if jsTypeof values = strLit "function" then (JsValue.undefV, values)
    else (values, callback)
  let values2 := shifted.1
  let callback2 := shifted.2
  let annotated := addFileCommentToQuery resolvedPosition text values2
  let forwarded :=
    match annotated with
    | Except.error _ => none
    | Except.ok (newText, newValues) => some (newText, newValues)
  let promiseOutcome :=
    match annotated with
    | Except.error e => Except.error e
    | Except.ok (newText, newValues) => origQuery newText newValues
  if truthy callback2 then
    ⟨forwarded, none, some (callback2, deliverToCallback promiseOutcome)⟩
  else
    ⟨forwarded, some promiseOutcome, none⟩

/-! ## Concrete fixtures used by witnesses and counterexamples -/

/-- A world with no map files at all. -/
def envAbsent : Env := ⟨fun _ => FileState.absent, fun _ => none⟩

/-- A world where every map file exists but reading it throws. -/
def envReadErr : Env := ⟨fun _ => FileState.readError, fun _ => none⟩

/-- A consumer answering a non-null but empty source name. -/
def consumerEmptySrc : Consumer := ⟨fun _ _ => ⟨some [], 5, 10⟩⟩

/-- A consumer mapping every position to app.ts line 5 column 10. -/
def consumerAppTs : Consumer := ⟨fun _ _ => ⟨some (strLit "app.ts"), 5, 10⟩⟩

/-- An original query that fulfils with the annotated text. -/
def origOk : JsValue → JsValue → Except JsValue JsValue := fun t _ => Except.ok t

/-- An original query that rejects with a fixed driver error. -/
def origFail : JsValue → JsValue → Except JsValue JsValue :=
  fun _ _ => Except.error (JsValue.str (strLit "driver error"))

/-- A concrete structured query object with one extra field. -/
def sampleFields : List (Str × JsValue) :=
  [(strLit "text", JsValue.str (strLit "SELECT 1")),
   (strLit "name", JsValue.str (strLit "q"))]

/-- The same world as env except that one path holds no file: used to state
that a read or parse failure is handled exactly like an absent map. -/
def envWithAbsent (env : Env) (q : Str) : Env :=
  ⟨fun r => if r = q then FileState.absent else env.fs r, env.parse⟩

/-- A concrete captured stack: a dependency frame, the module frame itself,
then two application frames. -/
def sampleStack : List RawFrame :=
  [⟨some (strLit "/x/node_modules/pg/lib/index.js"), 1, 1⟩,
   ⟨some (strLit "/x/pg-filecommenter-sourcemap.js"), 2, 2⟩,
   ⟨some (strLit "/x/app.js"), 7, 3⟩,
   ⟨some (strLit "/x/caller2.js"), 9, 9⟩]

/-! ## Helper lemmas about substring occurrence counting -/

/-- The marker every annotation comment starts with. -/
def annMarker : Str := strLit "/* file="

theorem annMarker_chars : annMarker = ['/', '*', ' ', 'f', 'i', 'l', 'e', '='] := rfl

theorem strIncludes_iff_occurs (hay needle : Str) :
    strIncludes hay needle = true ↔ needle <:+: hay := by
  induction hay with
  | nil =>
    simp [strIncludes, List.isEmpty_iff, List.infix_nil]
  | cons c rest ih =>
    simp only [strIncludes, Bool.or_eq_true, List.isPrefixOf_iff_prefix, ih,
      List.infix_cons_iff]

theorem countOcc_eq_zero_iff (p : Str) (hp : p ≠ []) (s : Str) :
    countOcc p s = 0 ↔ ¬ p <:+: s := by
  induction s with
  | nil =>
    simp [countOcc, List.infix_nil, hp]
  | cons c rest ih =>
    simp only [countOcc, Nat.add_eq_zero, ih, List.infix_cons_iff]
    constructor
    · rintro ⟨h1, h2⟩ (h | h)
      · rw [← List.isPrefixOf_iff_prefix] at h
        simp [h] at h1
      · exact h2 h
    · intro h
      refine ⟨?_, fun hr => h (Or.inr hr)⟩
      by_cases hpre : p.isPrefixOf (c :: rest) = true
      · exact absurd (Or.inl (List.isPrefixOf_iff_prefix.mp hpre)) h
      · simp [hpre]

theorem countOcc_zero_of_occurs {p s t : Str} (hp : p ≠ [])
    (hs : countOcc p s = 0) (hts : t <:+: s) : countOcc p t = 0 := by
  rw [countOcc_eq_zero_iff p hp] at hs ⊢
  exact fun h => hs (h.trans hts)

theorem isPrefixOf_append_of_le (p u b : Str) (h : p.length ≤ u.length) :
    p.isPrefixOf (u ++ b) = p.isPrefixOf u := by
  rw [Bool.eq_iff_iff, List.isPrefixOf_iff_prefix, List.isPrefixOf_iff_prefix]
  constructor
  · intro hpre
    rw [List.prefix_iff_eq_take] at hpre ⊢
    rw [List.take_append_eq_append_take, Nat.sub_eq_zero_of_le h,
      List.take_zero, List.append_nil] at hpre
    exact hpre
  · intro hpre
    exact hpre.trans (List.prefix_append u b)

theorem countOcc_append (p a b : Str)
    (h : ∀ u, u <:+ a → u ≠ [] → p.isPrefixOf (u ++ b) = p.isPrefixOf u) :
    countOcc p (a ++ b) = countOcc p a + countOcc p b := by
  induction a with
  | nil => simp [countOcc]
  | cons c a2 ih =>
    have hcons : p.isPrefixOf (c :: (a2 ++ b)) = p.isPrefixOf (c :: a2) := by
      have := h (c :: a2) (List.suffix_refl _) (by simp)
      simpa using this
    have ih2 := ih (fun u hu hne => h u (hu.trans (List.suffix_cons c a2)) hne)
    show (if p.isPrefixOf (c :: (a2 ++ b)) = true then 1 else 0) + countOcc p (a2 ++ b)
        = ((if p.isPrefixOf (c :: a2) = true then 1 else 0) + countOcc p a2) + countOcc p b
    rw [hcons, ih2]
    omega

theorem marker_no_straddle (u : Str) (c : Char) (T : Str) (hc : c ≠ 'f')
    (hu : u.length < 8) :
    annMarker.isPrefixOf (u ++ ' ' :: c :: T) = false := by
  have hfc : ('f' == c) = false := by simp [hc.symm]
  match u, hu with
  | [], _ => simp [annMarker_chars, List.isPrefixOf]
  | [a1], _ => simp [annMarker_chars, List.isPrefixOf]
  | [a1, a2], _ => simp [annMarker_chars, List.isPrefixOf, hfc]
  | [a1, a2, a3], _ => simp [annMarker_chars, List.isPrefixOf]
  | [a1, a2, a3, a4], _ => simp [annMarker_chars, List.isPrefixOf]
  | [a1, a2, a3, a4, a5], _ => simp [annMarker_chars, List.isPrefixOf]
  | [a1, a2, a3, a4, a5, a6], _ => simp [annMarker_chars, List.isPrefixOf]
  | [a1, a2, a3, a4, a5, a6, a7], _ => simp [annMarker_chars, List.isPrefixOf]
  | a1 :: a2 :: a3 :: a4 :: a5 :: a6 :: a7 :: a8 :: rest, hu =>
    simp only [List.length_cons] at hu
    omega

theorem marker_boundary (a : Str) (c : Char) (T : Str) (hc : c ≠ 'f') :
    ∀ u, u <:+ a → u ≠ [] →
      annMarker.isPrefixOf (u ++ ' ' :: c :: T) = annMarker.isPrefixOf u := by
  intro u _ _
  by_cases hlen : 8 ≤ u.length
  · exact isPrefixOf_append_of_le annMarker u _ (by rw [annMarker_chars]; simpa)
  · rw [marker_no_straddle u c T hc (by omega)]
    rw [Bool.eq_iff_iff]
    simp only [List.isPrefixOf_iff_prefix]
    constructor
    · simp
    · intro hpre
      have := hpre.length_le
      rw [annMarker_chars] at this
      simp at this
      omega

theorem countOcc_marker_head (Y : Str) :
    countOcc annMarker (annMarker ++ Y) = 1 + countOcc annMarker Y := by
  simp [annMarker_chars, countOcc, List.isPrefixOf]

theorem countOcc_marker_space (X : Str) :
    countOcc annMarker (' ' :: X) = countOcc annMarker X := by
  simp [annMarker_chars, countOcc, List.isPrefixOf]

theorem countOcc_marker_tail : countOcc annMarker [' ', '*', '/', ';'] = 0 := by
  decide

theorem annMarker_ne_nil : annMarker ≠ [] := by decide

theorem jsTrim_occurs (s : Str) : jsTrim s <:+: s := by
  unfold jsTrim
  have h3 : (s.dropWhile isJsWhitespace).reverse.dropWhile isJsWhitespace
      <:+ (s.dropWhile isJsWhitespace).reverse := List.dropWhile_suffix _
  have h4 : ((s.dropWhile isJsWhitespace).reverse.dropWhile isJsWhitespace).reverse
      <+: s.dropWhile isJsWhitespace := by
    have h5 := List.reverse_prefix.mpr h3
    rwa [List.reverse_reverse] at h5
  exact h4.isInfix.trans (List.dropWhile_suffix _).isInfix

theorem trim_dropLast_occurs (s : Str) : (jsTrim s).dropLast <:+: s :=
  (List.dropLast_prefix _).isInfix.trans (jsTrim_occurs s)

theorem buildComment_some (p : Str) :
    buildComment (some p) = annMarker ++ p ++ strLit " */" := rfl

theorem buildComment_none :
    buildComment none = annMarker ++ strLit "unknown" ++ strLit " */" := rfl

/-- The central counting fact: gluing a fresh comment block onto a
marker-free body yields exactly one marker occurrence. -/
theorem countOcc_annotated (L w : Str) (hL : countOcc annMarker L = 0)
    (hw : countOcc annMarker w = 0) :
    countOcc annMarker (L ++ ' ' :: ((annMarker ++ w ++ strLit " */") ++ [';'])) = 1 := by
  have hM : (annMarker ++ w ++ strLit " */") ++ [';']
      = annMarker ++ (w ++ [' ', '*', '/', ';']) := by
    simp [strLit, List.append_assoc]
  rw [hM]
  have hshape : ' ' :: (annMarker ++ (w ++ [' ', '*', '/', ';']))
      = ' ' :: '/' :: (['*', ' ', 'f', 'i', 'l', 'e', '='] ++ (w ++ [' ', '*', '/', ';'])) := by
    rw [annMarker_chars]; rfl
  have hsplitL : countOcc annMarker
        (L ++ ' ' :: (annMarker ++ (w ++ [' ', '*', '/', ';'])))
      = countOcc annMarker L
        + countOcc annMarker (' ' :: (annMarker ++ (w ++ [' ', '*', '/', ';']))) := by
    apply countOcc_append
    intro u hu hne
    rw [hshape]
    exact marker_boundary L '/' _ (by decide) u hu hne
  have hsplitW : countOcc annMarker (w ++ [' ', '*', '/', ';'])
      = countOcc annMarker w + countOcc annMarker [' ', '*', '/', ';'] := by
    apply countOcc_append
    intro u hu hne
    exact marker_boundary w '*' ['/', ';'] (by decide) u hu hne
  rw [hsplitL, hL, countOcc_marker_space, countOcc_marker_head, hsplitW, hw,
    countOcc_marker_tail]

/-- The last two characters of the rebuilt string are the comment closer
and the reinserted terminator. -/
theorem lastTwo (C : Str) :
    (C ++ ['/', ';']).getLast? = some ';'
    ∧ (C ++ ['/', ';']).dropLast.getLast? = some '/' := by
  have hsplit : C ++ ['/', ';'] = (C ++ ['/']) ++ [';'] := by simp
  constructor
  · rw [hsplit, List.getLast?_concat]
  · rw [hsplit, List.dropLast_concat, List.getLast?_concat]

theorem spaceStarSlash : strLit " */" = [' ', '*', '/'] := rfl

/-- C1 (amended): for a plain string query whose trimmed text ends with the
terminator and which does not already contain the annotation marker (and a
resolved position free of the marker), the string branch returns a string
that ends in exactly one terminator (last character is the terminator, the
one before it is not) and contains exactly one annotation comment. The
original claim also covered queries already containing an identical comment;
the string branch has no duplicate guard, so that part fails, see the
counterexample. -/
theorem annotate_string_single_comment
    (s : Str) (values : JsValue) (resolvedPosition : Option Str)
    (hterm : endsWith (jsTrim s) [';'] = true)
    (hclean : countOcc annMarker s = 0)
    (hpos : ∀ q, resolvedPosition = some q → countOcc annMarker q = 0) :
    ∃ R, addFileCommentToQuery resolvedPosition (JsValue.str s) values
        = Except.ok (JsValue.str R, values)
      ∧ R.getLast? = some ';'
      ∧ R.dropLast.getLast? ≠ some ';'
      ∧ countOcc annMarker R = 1 := by
  obtain ⟨w, hcomment, hw⟩ :
      ∃ w, buildComment resolvedPosition = annMarker ++ w ++ strLit " */"
        ∧ countOcc annMarker w = 0 := by
    cases resolvedPosition with
    | none => exact ⟨strLit "unknown", buildComment_none, by decide⟩
    | some p => exact ⟨p, buildComment_some p, hpos p rfl⟩
  have hL : countOcc annMarker (jsTrim s).dropLast = 0 :=
    countOcc_zero_of_occurs annMarker_ne_nil hclean (trim_dropLast_occurs s)
  have hsh : (jsTrim s).dropLast ++ ' ' :: buildComment resolvedPosition ++ [';']
      = ((jsTrim s).dropLast ++ ' ' :: (annMarker ++ w ++ [' ', '*'])) ++ ['/', ';'] := by
    rw [hcomment]
    simp [spaceStarSlash, List.append_assoc]
  refine ⟨(jsTrim s).dropLast ++ ' ' :: buildComment resolvedPosition ++ [';'],
    ?_, ?_, ?_, ?_⟩
  · simp [addFileCommentToQuery, hterm]
  · rw [hsh]
    exact (lastTwo _).1
  · rw [hsh, (lastTwo _).2]
    decide
  · rw [hcomment]
    have hfin := countOcc_annotated (jsTrim s).dropLast w hL hw
    simpa only [List.append_assoc, List.cons_append] using hfin

/-- C1 counterexample: a string query that already carries the identical
annotation comment gets a second one appended: the result holds two marker
occurrences, not one, refuting the claim for such inputs. -/
theorem annotate_string_duplicates_comment :
    addFileCommentToQuery none
      (JsValue.str (strLit "SELECT 1 /* file=unknown */;")) JsValue.undefV
      = Except.ok (JsValue.str
          (strLit "SELECT 1 /* file=unknown */ /* file=unknown */;"), JsValue.undefV)
    ∧ countOcc annMarker
        (strLit "SELECT 1 /* file=unknown */ /* file=unknown */;") = 2 :=
  ⟨rfl, by decide⟩

/-- C1 witness: the amended theorem applied at a concrete input. -/
theorem annotate_string_single_comment_inst :
    ∃ R, addFileCommentToQuery (some (strLit "app.js:7:3"))
        (JsValue.str (strLit "SELECT NOW();")) JsValue.undefV
        = Except.ok (JsValue.str R, JsValue.undefV)
      ∧ R.getLast? = some ';'
      ∧ R.dropLast.getLast? ≠ some ';'
      ∧ countOcc annMarker R = 1 :=
  annotate_string_single_comment _ _ _ (by decide) (by decide)
    (fun q hq => by cases hq; decide)

/-- With an unavailable map (cached absence, or a cache miss combined with a
missing, unreadable or unparsable map file), the loader answers none. -/
theorem load_none_of_unavailable (env : Env) (cache : Cache) (fn : Str)
    (hna : cacheLookup cache fn = some none ∨
      (cacheLookup cache fn = none ∧
        (env.fs (fn ++ strLit ".map") = FileState.absent ∨
         env.fs (fn ++ strLit ".map") = FileState.readError ∨
         ∃ d, env.fs (fn ++ strLit ".map") = FileState.content d
            ∧ env.parse d = none))) :
    ∃ cache2, loadSourceMapForFile env cache fn = (none, cache2) := by
  rcases hna with hhit | ⟨hmiss, hfs⟩
  · exact ⟨cache, by simp [loadSourceMapForFile, hhit]⟩
  · rcases hfs with habs | herr | ⟨d, hcont, hparse⟩
    · exact ⟨cacheSet cache fn none, by simp [loadSourceMapForFile, hmiss, habs]⟩
    · exact ⟨cacheSet cache fn none, by simp [loadSourceMapForFile, hmiss, herr]⟩
    · exact ⟨cacheSet cache fn none, by simp [loadSourceMapForFile, hmiss, hcont, hparse]⟩

/-- C2 (amended): for a frame with truthy fields whose file has a cached
consumer answering a truthy (non-null and non-empty) source for the queried
position, the resolver returns original source, line and column, not the
compiled position. The original claim asked this for every non-null source;
the code tests truthiness, so a non-null empty source falls back to the
compiled position, see the counterexample. -/
theorem resolve_mapped_uses_original
    (env : Env) (cache : Cache) (fn : Str) (l c : Int) (consumer : Consumer)
    (src : Str) (ol oc : Int)
    (hfn : fn ≠ []) (hl : l ≠ 0) (hc : c ≠ 0)
    (hcache : cacheLookup cache fn = some (some consumer))
    (hmap : consumer.originalPositionFor l c = ⟨some src, ol, oc⟩)
    (hsrc : src ≠ []) :
    (resolveOriginalPosition env cache (some ⟨fn, l, c⟩)).1
      = some (formatPosition src ol oc) := by
  have hload : loadSourceMapForFile env cache fn = (some consumer, cache) := by
    simp [loadSourceMapForFile, hcache]
  simp [resolveOriginalPosition, hload, hmap, jsStrTruthy, List.isEmpty_iff,
    hfn, hl, hc, hsrc]

/-- C2 counterexample: a cached consumer answering the non-null but empty
source for position 7:3 of app.js; the resolver falls back to the compiled
position instead of building the string from the original position. -/
theorem resolve_empty_source_falls_back :
    (resolveOriginalPosition envAbsent [(strLit "app.js", some consumerEmptySrc)]
        (some ⟨strLit "app.js", 7, 3⟩)).1
      = some (strLit "app.js:7:3")
    ∧ (consumerEmptySrc.originalPositionFor 7 3).source = some []
    ∧ some (strLit "app.js:7:3") ≠ some (formatPosition [] 5 10) :=
  ⟨rfl, rfl, by decide⟩

/-- C2 witness: the amended theorem applied with a concrete cached consumer
mapping to app.ts:5:10. -/
theorem resolve_mapped_uses_original_inst :
    (resolveOriginalPosition envAbsent [(strLit "app.js", some consumerAppTs)]
        (some ⟨strLit "app.js", 7, 3⟩)).1
      = some (formatPosition (strLit "app.ts") 5 10) :=
  resolve_mapped_uses_original envAbsent _ _ 7 3 consumerAppTs _ 5 10
    (by decide) (by decide) (by decide) rfl rfl (by decide)

/-- C3: with no usable source map for the file (a recorded absence, or a
cache miss combined with a missing, unreadable or unparsable map file), the
resolver renders the compiled position from the base file name; and the
concrete scenario: SELECT NOW() issued from unmapped app.js at line 7
column 3 annotates to SELECT NOW() /* file=app.js:7:3 */;. -/
theorem resolve_unmapped_uses_basename :
    (∀ (env : Env) (cache : Cache) (fn : Str) (l c : Int),
      fn ≠ [] → 1 ≤ l → 1 ≤ c →
      (cacheLookup cache fn = some none ∨
        (cacheLookup cache fn = none ∧
          (env.fs (fn ++ strLit ".map") = FileState.absent ∨
           env.fs (fn ++ strLit ".map") = FileState.readError ∨
           ∃ d, env.fs (fn ++ strLit ".map") = FileState.content d
              ∧ env.parse d = none))) →
      (resolveOriginalPosition env cache (some ⟨fn, l, c⟩)).1
        = some (formatPosition (baseName fn) l c))
    ∧ addFileCommentToQuery
        (resolveOriginalPosition envAbsent [] (some ⟨strLit "app.js", 7, 3⟩)).1
        (JsValue.str (strLit "SELECT NOW();")) JsValue.undefV
      = Except.ok (JsValue.str
          (strLit "SELECT NOW() /* file=app.js:7:3 */;"), JsValue.undefV) := by
  constructor
  · intro env cache fn l c hfn hl hc hna
    have hl0 : l ≠ 0 := by omega
    have hc0 : c ≠ 0 := by omega
    obtain ⟨cache2, hload⟩ := load_none_of_unavailable env cache fn hna
    simp [resolveOriginalPosition, hload, List.isEmpty_iff, hfn, hl0, hc0]
  · rfl

/-- C3 witness: the general statement applied to a compiled file inside a
directory tree, showing only the base name is used. -/
theorem resolve_unmapped_uses_basename_inst :
    (resolveOriginalPosition envAbsent [] (some ⟨strLit "/srv/app/app.js", 7, 3⟩)).1
      = some (formatPosition (baseName (strLit "/srv/app/app.js")) 7 3) :=
  resolve_unmapped_uses_basename.1 envAbsent [] _ 7 3 (by decide) (by decide)
    (by decide) (Or.inr ⟨rfl, Or.inl rfl⟩)

theorem assocLookup_setAssoc_self (f : List (Str × JsValue)) (k : Str) (v : JsValue) :
    assocLookup (setAssoc f k v) k = some v := by
  induction f with
  | nil => simp [setAssoc, assocLookup]
  | cons hd tl ih =>
    obtain ⟨k2, v2⟩ := hd
    by_cases h : k2 = k
    · simp [setAssoc, assocLookup, h]
    · simp [setAssoc, assocLookup, h, ih]

theorem assocLookup_setAssoc_ne (f : List (Str × JsValue)) (k : Str) (v : JsValue)
    (q : Str) (h : k ≠ q) :
    assocLookup (setAssoc f k v) q = assocLookup f q := by
  induction f with
  | nil => simp [setAssoc, assocLookup, h]
  | cons hd tl ih =>
    obtain ⟨k2, v2⟩ := hd
    by_cases h2 : k2 = k
    · subst h2
      simp [setAssoc, assocLookup, h]
    · simp [setAssoc, assocLookup, h2, ih]

/-- C4: annotating a structured query object whose text field is a string
is idempotent: a second application with the same position returns the very
same object (the freshly embedded comment makes the includes guard fire),
and every field other than text is looked up unchanged in the result. -/
theorem annotate_object_idempotent
    (fields : List (Str × JsValue)) (values : JsValue)
    (resolvedPosition : Option Str) (s : Str)
    (htext : assocLookup fields (strLit "text") = some (JsValue.str s)) :
    ∃ fields2,
      addFileCommentToQuery resolvedPosition (JsValue.obj fields) values
        = Except.ok (JsValue.obj fields2, values)
      ∧ addFileCommentToQuery resolvedPosition (JsValue.obj fields2) values
        = Except.ok (JsValue.obj fields2, values)
      ∧ ∀ k, k ≠ strLit "text" → assocLookup fields2 k = assocLookup fields k := by
  by_cases hs : s = []
  · subst hs
    refine ⟨fields, ?_, ?_, fun k _ => rfl⟩
    · simp [addFileCommentToQuery, jsTypeof, getProp, htext, truthy]
    · simp [addFileCommentToQuery, jsTypeof, getProp, htext, truthy]
  · by_cases hinc : strIncludes s (buildComment resolvedPosition) = true
    · refine ⟨fields, ?_, ?_, fun k _ => rfl⟩
      · simp [addFileCommentToQuery, jsTypeof, getProp, htext, truthy, hs, hinc]
      · simp [addFileCommentToQuery, jsTypeof, getProp, htext, truthy, hs, hinc]
    · refine ⟨setAssoc fields (strLit "text")
        (JsValue.str (replaceOptTrailingSemi (jsTrim s)
          ++ ' ' :: buildComment resolvedPosition ++ [';'])), ?_, ?_, ?_⟩
      · simp [addFileCommentToQuery, jsTypeof, getProp, htext, truthy, hs, hinc]
      · have hlook := assocLookup_setAssoc_self fields (strLit "text")
          (JsValue.str (replaceOptTrailingSemi (jsTrim s)
            ++ ' ' :: buildComment resolvedPosition ++ [';']))
        have hne : (replaceOptTrailingSemi (jsTrim s)
            ++ ' ' :: buildComment resolvedPosition ++ [';']).isEmpty = false := by
          simp [List.isEmpty_iff]
        have hinf : strIncludes
            (replaceOptTrailingSemi (jsTrim s)
              ++ ' ' :: buildComment resolvedPosition ++ [';'])
            (buildComment resolvedPosition) = true := by
          rw [strIncludes_iff_occurs]
          exact ⟨replaceOptTrailingSemi (jsTrim s) ++ [' '], [';'],
            by simp [List.append_assoc]⟩
        simp only [addFileCommentToQuery, jsTypeof, getProp, hlook, truthy, hne,
          hinf, Option.getD_some, Bool.not_false, ite_true, eq_self_iff_true]
      · intro k hk
        exact assocLookup_setAssoc_ne fields _ _ k (Ne.symm hk)

/-- C4 witness: the theorem applied to a concrete named query object. -/
theorem annotate_object_idempotent_inst :
    ∃ fields2,
      addFileCommentToQuery none (JsValue.obj sampleFields) JsValue.undefV
        = Except.ok (JsValue.obj fields2, JsValue.undefV)
      ∧ addFileCommentToQuery none (JsValue.obj fields2) JsValue.undefV
        = Except.ok (JsValue.obj fields2, JsValue.undefV)
      ∧ ∀ k, k ≠ strLit "text" →
          assocLookup fields2 k = assocLookup sampleFields k :=
  annotate_object_idempotent sampleFields JsValue.undefV none
    (strLit "SELECT 1") rfl

/-- C5: behaviour on unrecognised payloads. Numbers, arrays without a text
field, and objects with an absent or empty text field pass through
unmodified, as the claim says; but the null payload, whose typeof is also
the string object, makes the text access throw a TypeError, so the
annotation promise rejects and the query is never issued. The final
conjunct records the code behaviour at the failing input null. -/
theorem annotate_unrecognised_payloads :
    addFileCommentToQuery none (JsValue.num 42) JsValue.undefV
      = Except.ok (JsValue.num 42, JsValue.undefV)
    ∧ addFileCommentToQuery none (JsValue.arr []) JsValue.undefV
      = Except.ok (JsValue.arr [], JsValue.undefV)
    ∧ addFileCommentToQuery none (JsValue.obj []) JsValue.undefV
      = Except.ok (JsValue.obj [], JsValue.undefV)
    ∧ addFileCommentToQuery none
        (JsValue.obj [(strLit "text", JsValue.str [])]) JsValue.undefV
      = Except.ok (JsValue.obj [(strLit "text", JsValue.str [])], JsValue.undefV)
    ∧ addFileCommentToQuery none JsValue.null JsValue.undefV
      = Except.error typeErrorValue :=
  ⟨rfl, rfl, rfl, rfl, rfl⟩

/-- A value of typeof function is a function value. -/
theorem eq_func_of_jsTypeof (v : JsValue) (h : jsTypeof v = strLit "function") :
    ∃ tag, v = JsValue.func tag := by
  cases v with
  | func tag => exact ⟨tag, rfl⟩
  | undefV => simp [jsTypeof, strLit] at h
  | null => simp [jsTypeof, strLit] at h
  | bool b => simp [jsTypeof, strLit] at h
  | num n => simp [jsTypeof, strLit] at h
  | str s => simp [jsTypeof, strLit] at h
  | arr elems => simp [jsTypeof, strLit] at h
  | obj fields => simp [jsTypeof, strLit] at h

/-- C6: the callback contract of the patched pool.query. With a function
second argument it becomes the callback: nothing is returned, and once the
query has been forwarded the callback receives null and the result on
success and the error alone on failure. The same holds for a function third
argument behind a non-function second one. With no callback at all the
promise of the forwarded outcome is returned and no callback is called. -/
theorem patched_query_callback_contract
    (origQuery : JsValue → JsValue → Except JsValue JsValue)
    (resolvedPosition : Option Str) (text values cb : JsValue) :
    (jsTypeof values = strLit "function" →
      (patchedQuery origQuery resolvedPosition text values cb).returned = none
      ∧ ∀ t v, (patchedQuery origQuery resolvedPosition text values cb).forwarded
            = some (t, v) →
          (∀ r, origQuery t v = Except.ok r →
            (patchedQuery origQuery resolvedPosition text values cb).callbackCall
              = some (values, [JsValue.null, r]))
          ∧ ∀ e, origQuery t v = Except.error e →
            (patchedQuery origQuery resolvedPosition text values cb).callbackCall
              = some (values, [e]))
    ∧ (jsTypeof values ≠ strLit "function" → jsTypeof cb = strLit "function" →
      (patchedQuery origQuery resolvedPosition text values cb).returned = none
      ∧ ∀ t v, (patchedQuery origQuery resolvedPosition text values cb).forwarded
            = some (t, v) →
          (∀ r, origQuery t v = Except.ok r →
            (patchedQuery origQuery resolvedPosition text values cb).callbackCall
              = some (cb, [JsValue.null, r]))
          ∧ ∀ e, origQuery t v = Except.error e →
            (patchedQuery origQuery resolvedPosition text values cb).callbackCall
              = some (cb, [e]))
    ∧ (jsTypeof values ≠ strLit "function" → cb = JsValue.undefV →
      (patchedQuery origQuery resolvedPosition text values cb).callbackCall = none
      ∧ ∀ t v, (patchedQuery origQuery resolvedPosition text values cb).forwarded
            = some (t, v) →
          (patchedQuery origQuery resolvedPosition text values cb).returned
            = some (origQuery t v)) := by
  refine ⟨?_, ?_, ?_⟩
  · intro hfun
    obtain ⟨tag, rfl⟩ := eq_func_of_jsTypeof values hfun
    cases hann : addFileCommentToQuery resolvedPosition text JsValue.undefV with
    | error e =>
      refine ⟨by simp [patchedQuery, jsTypeof, truthy, hann], ?_⟩
      intro t v hf
      simp [patchedQuery, jsTypeof, truthy, hann] at hf
    | ok tv =>
      obtain ⟨t0, v0⟩ := tv
      refine ⟨by simp [patchedQuery, jsTypeof, truthy, hann], ?_⟩
      intro t v hf
      simp [patchedQuery, jsTypeof, truthy, hann] at hf
      obtain ⟨rfl, rfl⟩ := hf
      constructor
      · intro r hr
        simp [patchedQuery, jsTypeof, truthy, hann, deliverToCallback, hr]
      · intro e he
        simp [patchedQuery, jsTypeof, truthy, hann, deliverToCallback, he]
  · intro hvn hcf
    obtain ⟨tag, rfl⟩ := eq_func_of_jsTypeof cb hcf
    cases hann : addFileCommentToQuery resolvedPosition text values with
    | error e =>
      refine ⟨by simp [patchedQuery, truthy, hann, hvn], ?_⟩
      intro t v hf
      simp [patchedQuery, truthy, hann, hvn] at hf
    | ok tv =>
      obtain ⟨t0, v0⟩ := tv
      refine ⟨by simp [patchedQuery, truthy, hann, hvn], ?_⟩
      intro t v hf
      simp [patchedQuery, truthy, hann, hvn] at hf
      obtain ⟨rfl, rfl⟩ := hf
      constructor
      · intro r hr
        simp [patchedQuery, truthy, hann, deliverToCallback, hr, hvn]
      · intro e he
        simp [patchedQuery, truthy, hann, deliverToCallback, he, hvn]
  · intro hvn hcb
    subst hcb
    cases hann : addFileCommentToQuery resolvedPosition text values with
    | error e =>
      refine ⟨by simp [patchedQuery, truthy, hann, hvn], ?_⟩
      intro t v hf
      simp [patchedQuery, truthy, hann, hvn] at hf
    | ok tv =>
      obtain ⟨t0, v0⟩ := tv
      refine ⟨by simp [patchedQuery, truthy, hann, hvn], ?_⟩
      intro t v hf
      simp [patchedQuery, truthy, hann, hvn] at hf
      obtain ⟨rfl, rfl⟩ := hf
      simp [patchedQuery, truthy, hann, hvn]

/-- C6 witness: callback style with a function second argument and a
fulfilling original query delivers null and the result to that function
and returns nothing. -/
theorem patched_query_callback_contract_inst :
    (patchedQuery origOk none (JsValue.str (strLit "SELECT 1")) (JsValue.func 0)
        JsValue.undefV).returned = none
    ∧ (patchedQuery origOk none (JsValue.str (strLit "SELECT 1")) (JsValue.func 0)
        JsValue.undefV).callbackCall
      = some (JsValue.func 0,
          [JsValue.null, JsValue.str (strLit "SELECT 1 /* file=unknown */")]) := by
  have h := (patched_query_callback_contract origOk none
    (JsValue.str (strLit "SELECT 1")) (JsValue.func 0) JsValue.undefV).1 rfl
  refine ⟨h.1, ?_⟩
  exact (h.2 (JsValue.str (strLit "SELECT 1 /* file=unknown */")) JsValue.undefV
    rfl).1 _ rfl

/-- A successful find? answers the first element satisfying the filter. -/
theorem find?_first {α : Type} (p : α → Bool) (l : List α) (a : α)
    (h : l.find? p = some a) :
    ∃ l1 l2, l = l1 ++ a :: l2 ∧ (∀ b ∈ l1, p b = false) ∧ p a = true := by
  induction l with
  | nil => simp [List.find?] at h
  | cons x xs ih =>
    by_cases hx : p x = true
    · rw [List.find?_cons_of_pos xs hx] at h
      injection h with h
      subst h
      exact ⟨[], xs, rfl, by simp, hx⟩
    · rw [List.find?_cons_of_neg xs hx] at h
      obtain ⟨l1, l2, rfl, hall, hpa⟩ := ih h
      refine ⟨x :: l1, l2, rfl, ?_, hpa⟩
      intro b hb
      rcases List.mem_cons.mp hb with rfl | hb2
      · exact (Bool.not_eq_true (p b)).mp hx
      · exact hall b hb2

/-- What passing the frame filter means for the file name. -/
theorem frameQualifies_spec (rf : RawFrame) (h : frameQualifies rf = true) :
    ∃ fn, rf.fileName = some fn ∧ fn ≠ []
      ∧ strIncludes fn (strLit "node_modules") = false
      ∧ (strLit "pg-filecommenter-sourcemap.js").isSuffixOf fn = false := by
  cases hfn : rf.fileName with
  | none => simp [frameQualifies, hfn] at h
  | some fn =>
    simp only [frameQualifies, hfn, Bool.and_eq_true, Bool.not_eq_true'] at h
    refine ⟨fn, rfl, ?_, h.1.2, h.2⟩
    intro hnil
    rw [hnil] at h
    simpa using h.1.1

/-- C7: getCallerFrame answers none exactly when no captured frame passes
the filter; an answered frame has a nonempty file name that does not
contain node_modules and does not end in the module file name
pg-filecommenter-sourcemap.js (so it is not the instrumentation module's
own file), and it is built from the first qualifying frame in scan order,
every earlier frame failing the filter. -/
theorem caller_frame_selection (st : ProcState) (rawStack : List RawFrame) :
    ((getCallerFrame st rawStack).1 = none →
      ∀ f ∈ rawStack, frameQualifies f = false)
    ∧ ∀ fr, (getCallerFrame st rawStack).1 = some fr →
        fr.fileName ≠ []
        ∧ strIncludes fr.fileName (strLit "node_modules") = false
        ∧ (strLit "pg-filecommenter-sourcemap.js").isSuffixOf fr.fileName = false
        ∧ ∃ l1 rf l2, rawStack = l1 ++ rf :: l2
            ∧ (∀ g ∈ l1, frameQualifies g = false)
            ∧ frameQualifies rf = true ∧ toFrame rf = fr := by
  constructor
  · intro hnone f hf
    have hfind : rawStack.find? frameQualifies = none := by
      simpa [getCallerFrame] using hnone
    exact (Bool.not_eq_true _).mp (List.find?_eq_none.mp hfind f hf)
  · intro fr hsome
    have hmap : (rawStack.find? frameQualifies).map toFrame = some fr := by
      simpa [getCallerFrame] using hsome
    obtain ⟨rf, hfind, hto⟩ := Option.map_eq_some'.mp hmap
    obtain ⟨l1, l2, rfl, hall, hq⟩ := find?_first frameQualifies _ rf hfind
    obtain ⟨fn, hfn, hne, hinc, hsuf⟩ := frameQualifies_spec rf hq
    have hfr : fr.fileName = fn := by
      rw [← hto]
      simp [toFrame, hfn]
    refine ⟨?_, ?_, ?_, l1, rf, l2, rfl, hall, hq, hto⟩
    · rw [hfr]; exact hne
    · rw [hfr]; exact hinc
    · rw [hfr]; exact hsuf

/-- C7 witness: on the concrete sample stack the third frame is selected:
it is the first one neither inside node_modules nor the module itself. -/
theorem caller_frame_selection_inst :
    (⟨strLit "/x/app.js", 7, 3⟩ : Frame).fileName ≠ []
    ∧ strIncludes (⟨strLit "/x/app.js", 7, 3⟩ : Frame).fileName
        (strLit "node_modules") = false
    ∧ (strLit "pg-filecommenter-sourcemap.js").isSuffixOf
        (⟨strLit "/x/app.js", 7, 3⟩ : Frame).fileName = false
    ∧ ∃ l1 rf l2, sampleStack = l1 ++ rf :: l2
        ∧ (∀ g ∈ l1, frameQualifies g = false)
        ∧ frameQualifies rf = true ∧ toFrame rf = ⟨strLit "/x/app.js", 7, 3⟩ :=
  (caller_frame_selection ⟨PrepareVal.host 0⟩ sampleStack).2
    ⟨strLit "/x/app.js", 7, 3⟩ rfl

theorem cacheLookup_cacheSet_self (c : Cache) (q : Str) (v : Option Consumer) :
    cacheLookup (cacheSet c q v) q = some v := by
  simp [cacheLookup, cacheSet]

/-- C8: the loader is memoized and failure degrades to absence. First, a
repeated request for the same path, in any later world, answers the entry
just cached and leaves the cache unchanged (so nothing is re-read or
re-parsed: the filesystem is not consulted at all). Second, a world whose
map file read throws, or whose content fails to parse, produces exactly the
state an absent map file produces; no error escapes the loader. -/
theorem source_map_cache_memoized :
    (∀ (env env2 : Env) (cache : Cache) (p : Str),
      loadSourceMapForFile env2 (loadSourceMapForFile env cache p).2 p
        = loadSourceMapForFile env cache p)
    ∧ ∀ (env : Env) (cache : Cache) (p : Str),
        (env.fs (p ++ strLit ".map") = FileState.readError ∨
          ∃ d, env.fs (p ++ strLit ".map") = FileState.content d
            ∧ env.parse d = none) →
        loadSourceMapForFile env cache p
          = loadSourceMapForFile (envWithAbsent env (p ++ strLit ".map")) cache p := by
  constructor
  · intro env env2 cache p
    cases hch : cacheLookup cache p with
    | some e => simp [loadSourceMapForFile, hch]
    | none =>
      cases hfs : env.fs (p ++ strLit ".map") with
      | absent => simp [loadSourceMapForFile, hch, hfs, cacheSet, cacheLookup]
      | readError => simp [loadSourceMapForFile, hch, hfs, cacheSet, cacheLookup]
      | content d =>
        cases hp : env.parse d with
        | none => simp [loadSourceMapForFile, hch, hfs, hp, cacheSet, cacheLookup]
        | some m => simp [loadSourceMapForFile, hch, hfs, hp, cacheSet, cacheLookup]
  · intro env cache p hfail
    cases hch : cacheLookup cache p with
    | some e => simp [loadSourceMapForFile, hch, envWithAbsent]
    | none =>
      rcases hfail with herr | ⟨d, hcont, hparse⟩
      · simp [loadSourceMapForFile, hch, herr, envWithAbsent]
      · simp [loadSourceMapForFile, hch, hcont, hparse, envWithAbsent]

/-- C8 witness: with a map file whose read throws, loading behaves exactly
as with no map file at all. -/
theorem source_map_cache_memoized_inst :
    loadSourceMapForFile envReadErr [] (strLit "app.js")
      = loadSourceMapForFile
          (envWithAbsent envReadErr (strLit "app.js" ++ strLit ".map"))
          [] (strLit "app.js") :=
  source_map_cache_memoized.2 envReadErr [] (strLit "app.js") (Or.inl rfl)

/-- C9: every invocation of getCallerFrame leaves Error.prepareStackTrace
as it found it: the function saves the slot, installs the raw-stack
returner, and writes the saved value back before scanning, and both the
capture (the installed returner formats nothing, it returns the raw frame
array) and the scan (plain reads of frame fields) are total, so the restore
is reached on every path and the final process state equals the initial
one for every prior value and every captured stack. -/
theorem caller_frame_restores_prepare (st : ProcState) (rawStack : List RawFrame) :
    (getCallerFrame st rawStack).2 = st := rfl

/-- Annotation hands the values argument through unchanged. -/
theorem annotate_preserves_values (pos : Option Str) (text values t v : JsValue)
    (h : addFileCommentToQuery pos text values = Except.ok (t, v)) :
    v = values := by
  cases text <;> simp only [addFileCommentToQuery, jsTypeof, getProp] at h <;>
    repeat' split at h
  all_goals
    first
      | (injection h with h2
         exact (congrArg Prod.snd h2).symm)
      | simp at h

/-- C10 (amended): whenever the annotation step completes, the original
query method receives exactly the annotated query and the values left after
the argument shift (the values are handed through annotation unchanged, and
shift to undefined when the second argument was a function), and never a
callback: when the second argument is a function, any callback invocation
goes to that function, never to the discarded third argument. When the
annotation step throws (as for a null payload) the original query is not
invoked at all; the unamended claim asserted an unconditional invocation,
refuted by the counterexample. -/
theorem patched_query_forwarding
    (origQuery : JsValue → JsValue → Except JsValue JsValue)
    (resolvedPosition : Option Str) (text values cb : JsValue) :
    (∀ t v, addFileCommentToQuery resolvedPosition text
        (if jsTypeof values = strLit "function" then JsValue.undefV else values)
        = Except.ok (t, v) →
      (patchedQuery origQuery resolvedPosition text values cb).forwarded = some (t, v)
      ∧ v = (if jsTypeof values = strLit "function" then JsValue.undefV else values))
    ∧ (∀ e, addFileCommentToQuery resolvedPosition text
        (if jsTypeof values = strLit "function" then JsValue.undefV else values)
        = Except.error e →
      (patchedQuery origQuery resolvedPosition text values cb).forwarded = none)
    ∧ (jsTypeof values = strLit "function" →
      ∀ f args, (patchedQuery origQuery resolvedPosition text values cb).callbackCall
          = some (f, args) → f = values) := by
  by_cases hfun : jsTypeof values = strLit "function"
  · obtain ⟨tag, rfl⟩ := eq_func_of_jsTypeof values hfun
    refine ⟨?_, ?_, ?_⟩
    · intro t v hann
      simp only [jsTypeof, ite_true] at hann ⊢
      refine ⟨by simp [patchedQuery, jsTypeof, truthy, hann], ?_⟩
      exact annotate_preserves_values _ _ _ _ _ hann
    · intro e hann
      simp only [jsTypeof, ite_true] at hann
      simp [patchedQuery, jsTypeof, truthy, hann]
    · intro _ f args hcall
      simp [patchedQuery, jsTypeof, truthy] at hcall
      exact hcall.1.symm
  · refine ⟨?_, ?_, fun h => absurd h hfun⟩
    · intro t v hann
      rw [if_neg hfun] at hann ⊢
      refine ⟨?_, annotate_preserves_values _ _ _ _ _ hann⟩
      by_cases hcb : truthy cb = true
      · simp [patchedQuery, hfun, hcb, hann]
      · simp [patchedQuery, hfun, hcb, hann]
    · intro e hann
      rw [if_neg hfun] at hann
      by_cases hcb : truthy cb = true
      · simp [patchedQuery, hfun, hcb, hann]
      · simp [patchedQuery, hfun, hcb, hann]

/-- C10 counterexample: calling the patched query with a null payload and a
callback makes annotation throw, so the original query method is never
invoked (nothing is forwarded), although the patched pool.query itself was
invoked; the callback receives the TypeError. -/
theorem patched_query_null_not_forwarded :
    patchedQuery origOk none JsValue.null JsValue.undefV (JsValue.func 0)
      = ⟨none, none, some (JsValue.func 0, [typeErrorValue])⟩ := rfl

/-- C10 witness: with a function second argument and a function third
argument, the annotated text and undefined values are forwarded and the
invoked callback is the second argument, not the discarded third one. -/
theorem patched_query_forwarding_inst :
    ((patchedQuery origFail none (JsValue.str (strLit "SELECT 1")) (JsValue.func 3)
        (JsValue.func 4)).forwarded
      = some (JsValue.str (strLit "SELECT 1 /* file=unknown */"), JsValue.undefV))
    ∧ ∀ f args, (patchedQuery origFail none (JsValue.str (strLit "SELECT 1"))
        (JsValue.func 3) (JsValue.func 4)).callbackCall = some (f, args) →
          f = JsValue.func 3 := by
  constructor
  · exact ((patched_query_forwarding origFail none (JsValue.str (strLit "SELECT 1"))
      (JsValue.func 3) (JsValue.func 4)).1
      (JsValue.str (strLit "SELECT 1 /* file=unknown */")) JsValue.undefV rfl).1
  · exact (patched_query_forwarding origFail none (JsValue.str (strLit "SELECT 1"))
      (JsValue.func 3) (JsValue.func 4)).2.2 rfl

end PgFileCommenter
